import Mathlib

/-!
# MovieProject (TMDb dataset builder): shallow embedding and verification

This file embeds the fetch-cache-validate pipeline of the `tmdb_dataset_builder`
repository (`src/data_fetcher/`: `validators.py`, `cache_manager.py`,
`tmdb_client.py`, `movie_fetcher.py`, `main.py`, `config.py`) as executable Lean
definitions, and proves or refutes the frozen claims about it.

Modelling conventions (stated once here, referenced below):
* Python dict fields that are "missing or `None`" are modelled as `Option`
  values with `none`; `validate_movie` treats missing and `None` identically
  (`field not in movie_data or movie_data[field] is None`), and `set_movie`'s
  `'field' in movie_data` tests are read as `Option.isSome`.
* Python `str` whitespace operations (`split()`, `strip()`, `lower()`) are
  modelled over the six ASCII whitespace characters and ASCII case mapping.
* Floating-point payload fields (`vote_average`, `popularity`) are opaque
  carried-through values; they are modelled as integers since no claim
  depends on their arithmetic.
* Wall-clock time: the cache timestamps (`datetime.now().isoformat()`) are a
  `Nat` counter ticking once per cache `set`; the rate limiter's `time.time()`
  / `time.sleep()` are modelled over `ℚ` with exact sleeps.
* HTTP: each remote endpoint is an oracle giving the scripted list of
  responses the `requests` session delivers for successive attempts (the
  session-level retry adapter is folded into the delivered response).  A 429
  consumes the next scripted response; running out of scripted responses maps
  to the distinguished `PipeErr.unscripted` (it never occurs in the theorems).
* Logging, progress bars, CSV/JSON file I/O and the on-disk cache snapshot are
  external collaborators and are not modelled.
-/

namespace MovieProject

/-! ## Python string primitives (ASCII model) -/

/-- The six ASCII whitespace characters recognised by Python's `str.split()` /
`str.strip()`. -/
def pyIsSpace (c : Char) : Bool :=
  c = ' ' || c = '\t' || c = '\n' || c = '\r' || c = '\x0b' || c = '\x0c'

/-- Python `str.strip()` on a list of characters: drop whitespace from both
ends. -/
def pyStripList (l : List Char) : List Char :=
  ((l.dropWhile pyIsSpace).reverse.dropWhile pyIsSpace).reverse

/-- Python `str.strip()`. -/
def pyStripString (s : String) : String :=
  String.mk (pyStripList s.data)

/-- Python `str.lower()` (ASCII case mapping, via `Char.toLower`). -/
def pyLowerString (s : String) : String :=
  String.mk (s.data.map Char.toLower)

/-- Worker for Python `str.split()` (no separator argument): `acc` holds the
characters of the word currently being read, in reverse. -/
def pySplitAux : List Char → List Char → List (List Char)
  | [], acc => if acc.isEmpty then [] else [acc.reverse]
  | c :: rest, acc =>
    if pyIsSpace c then
      if acc.isEmpty then pySplitAux rest [] else acc.reverse :: pySplitAux rest []
    else pySplitAux rest (c :: acc)

/-- Python `str.split()` with no argument: split on runs of whitespace,
discarding empty words. -/
def pySplit (l : List Char) : List (List Char) :=
  pySplitAux l []

/-- Python `' '.join(words)` on lists of characters. -/
def joinSpace : List (List Char) → List Char
  | [] => []
  | [w] => w
  | w :: x :: ws => w ++ ' ' :: joinSpace (x :: ws)

/-- `true` iff the list has no two adjacent space characters. -/
def noDoubleSpace : List Char → Bool
  | a :: b :: t => !(a == ' ' && b == ' ') && noDoubleSpace (b :: t)
  | _ => true

/-- The last element of a list of characters, if any. -/
def lastChar : List Char → Option Char
  | [] => none
  | [a] => some a
  | _ :: b :: t => lastChar (b :: t)

/-! ## config.py constants -/

def RATE_LIMIT_DELAY : ℚ := 1 / 45

def MIN_OVERVIEW_LENGTH : Nat := 20

def MIN_YEAR : Int := 1888

def MAX_YEAR : Int := 2030

def MIN_GENRES : Nat := 1

def TOP_CAST_COUNT : Nat := 10

def RETRYABLE_STATUS_CODES : List Nat := [429, 500, 502, 503, 504]

def FATAL_STATUS_CODES : List Nat := [401, 403]

/-! ## validators.py -/

/-- Python's single-character `str.replace(a, b)` applied to one character. -/
def replaceChar (a b : Char) : Char → Char :=
  fun c => if c = a then b else c

/-- `MovieValidator.sanitize_text` on a list of characters: replace `\n` and
`\r` by spaces, collapse whitespace runs via `' '.join(text.split())`, replace
`"` by `'` (`Char.ofNat 39`), and strip.  The leading guard models Python's
`if not text: return ""` (falsy empty string or `None`). -/
def sanitizeList (l : List Char) : List Char :=
  if l = [] then []
  else
    let t1 := (l.map (replaceChar '\n' ' ')).map (replaceChar '\r' ' ')
    let t2 := joinSpace (pySplit t1)
    let t3 := t2.map (replaceChar '"' (Char.ofNat 39))
    pyStripList t3

/-- `MovieValidator.sanitize_text` (`validators.py`). -/
def sanitize_text (s : String) : String :=
  String.mk (sanitizeList s.data)

/-- `MovieValidator.is_valid_tmdb_id` on an integer input: `int(tmdb_id) > 0`
(the numeric-string tolerance of the Python original is outside this typed
model). -/
def is_valid_tmdb_id (tmdb_id : Int) : Bool :=
  tmdb_id > 0

/-! ## The enriched movie record

The dict built by `MovieFetcher._enrich_movie_data`, also the value type of
the cache.  `none` models a missing-or-null field (see header).  The credit
and keyword fields default to empty when their extension is disabled or
skipped, conflating a missing key with an empty extraction, which no consumer
in the repository distinguishes. -/

structure Movie where
  tmdb_id : Option Int
  title : Option String
  overview : Option String
  release_date : Option String
  year : Option Int
  genres : List String
  genre_ids : List Int
  vote_average : Option Int
  vote_count : Option Int
  popularity : Option Int
  original_title : Option String
  original_language : Option String
  runtime : Option Int
  poster_path : Option String
  backdrop_path : Option String
  tagline : Option String
  budget : Option Int
  revenue : Option Int
  cast : List String
  cast_ids : List Int
  director : Option String
  keywords : List String
  fetched_at : Option Nat
deriving DecidableEq, Repr

/-- `MovieValidator.validate_movie` (`validators.py`): the five ordered checks,
first failure wins.  The required-field loop iterates `config.REQUIRED_FIELDS =
["tmdb_id", "title", "overview", "release_date"]` in order.  The
`int(year)`-unparsable branch of check 4 is unreachable in this typed model
(`year` is an optional integer, as produced by the fetcher). -/
def validate_movie (m : Movie) : Bool × String :=
  if m.tmdb_id.isNone then (false, "Campo obrigatório ausente: tmdb_id")
  else if m.title.isNone then (false, "Campo obrigatório ausente: title")
  else if m.overview.isNone then (false, "Campo obrigatório ausente: overview")
  else if m.release_date.isNone then (false, "Campo obrigatório ausente: release_date")
  else
    let overview := m.overview.getD ""
    if overview.length < MIN_OVERVIEW_LENGTH then
      (false, "Overview muito curto: " ++ toString overview.length ++
        " caracteres (mínimo: " ++ toString MIN_OVERVIEW_LENGTH ++ ")")
    else if pyStripString overview = "" then
      (false, "Overview é string vazia")
    else
      let genreCheck : Bool × String :=
        if m.genres.isEmpty || m.genres.length < MIN_GENRES then
          (false, "Gêneros insuficientes: " ++ toString m.genres.length ++
            " (mínimo: " ++ toString MIN_GENRES ++ ")")
        else (true, "")
      match m.year with
      | some y =>
        if y < MIN_YEAR || y > MAX_YEAR then
          (false, "Ano fora do intervalo válido: " ++ toString y ++
            " (permitido: " ++ toString MIN_YEAR ++ "-" ++ toString MAX_YEAR ++ ")")
        else genreCheck
      | none => genreCheck

/-! ## cache_manager.py

The in-memory dict `self.cache` is an insertion-ordered association list with
unique keys (`updateAssoc` overwrites in place, as dict assignment does).
`clock` models wall-clock time for the `fetched_at` timestamps, ticking once
per `set` call.  The thread lock, disk snapshot and load-time recovery are not
modelled (single logical thread, no file I/O). -/

structure CacheState where
  cache : List (String × Movie)
  hits : Nat
  misses : Nat
  clock : Nat
deriving DecidableEq, Repr

/-- Dict lookup. -/
def lookupAssoc (k : String) : List (String × Movie) → Option Movie
  | [] => none
  | (k', v) :: t => if k' = k then some v else lookupAssoc k t

/-- Dict assignment: overwrite the existing binding in place, else append. -/
def updateAssoc (k : String) (v : Movie) : List (String × Movie) → List (String × Movie)
  | [] => [(k, v)]
  | (k', v') :: t => if k' = k then (k, v) :: t else (k', v') :: updateAssoc k v t

/-- `CacheManager._make_id_key`: `f"id_{tmdb_id}"`. -/
def make_id_key (tmdb_id : Int) : String :=
  "id_" ++ toString tmdb_id

/-- `CacheManager._make_title_key`: lowercase and strip the title, append the
year, or the literal `"unknown"` when the year is falsy (`None` or `0`). -/
def make_title_key (title : String) (year : Option Int) : String :=
  let title_normalized := pyStripString (pyLowerString title)
  let year_str := match year with
    | some y => if y = 0 then "unknown" else toString y
    | none => "unknown"
  title_normalized ++ "_" ++ year_str

/-- `CacheManager.get`: return the cached value and bump exactly one of the
hit/miss counters. -/
def cacheGet (key : String) (s : CacheState) : Option Movie × CacheState :=
  match lookupAssoc key s.cache with
  | some v => (some v, { s with hits := s.hits + 1 })
  | none => (none, { s with misses := s.misses + 1 })

/-- `CacheManager.get_by_id`. -/
def get_by_id (tmdb_id : Int) (s : CacheState) : Option Movie × CacheState :=
  cacheGet (make_id_key tmdb_id) s

/-- `CacheManager.get_by_title`. -/
def get_by_title (title : String) (year : Option Int) (s : CacheState) :
    Option Movie × CacheState :=
  cacheGet (make_title_key title year) s

/-- `CacheManager.set`: stamp `value['fetched_at'] = datetime.now().isoformat()`
(the mutated dict is both stored and visible to the caller, hence it is
returned), store it, and advance the clock.  Counters are untouched. -/
def cacheSet (key : String) (value : Movie) (s : CacheState) : Movie × CacheState :=
  let value' := { value with fetched_at := some s.clock }
  (value', { s with cache := updateAssoc key value' s.cache, clock := s.clock + 1 })

/-- `CacheManager.set_movie`: store under the id key when `'tmdb_id'` is
present, then under the title+year key when `'title'` is present.  In Python
both `set` calls mutate the *same* dict object in place, so after the second
call the entry stored under the id key also carries the second `fetched_at`
timestamp; the final `updateAssoc` on the id key makes that aliasing explicit
in this value-semantics model.  Returns the final state of the stored dict. -/
def set_movie (m : Movie) (s : CacheState) : Movie × CacheState :=
  match m.tmdb_id with
  | some i =>
    let (m1, s1) := cacheSet (make_id_key i) m s
    match m1.title with
    | some t =>
      let (m2, s2) := cacheSet (make_title_key t m1.year) m1 s1
      (m2, { s2 with cache := updateAssoc (make_id_key i) m2 s2.cache })
    | none => (m1, s1)
  | none =>
    match m.title with
    | some t => cacheSet (make_title_key t m.year) m s
    | none => (m, s)

/-- `CacheManager.clear`: empty the map and reset both counters. -/
def cacheClear (s : CacheState) : CacheState :=
  { s with cache := [], hits := 0, misses := 0 }

/-- The dict returned by `CacheManager.get_stats`. -/
structure CacheStats where
  size : Nat
  hits : Nat
  misses : Nat
  hit_rate : ℚ
deriving DecidableEq, Repr

/-- `CacheManager.get_stats`. -/
def get_stats (s : CacheState) : CacheStats :=
  let total_requests := s.hits + s.misses
  { size := s.cache.length
    hits := s.hits
    misses := s.misses
    hit_rate := if total_requests > 0 then (s.hits : ℚ) / total_requests * 100 else 0 }

/-! ## tmdb_client.py -/

/-- One HTTP response as delivered by the `requests` session (after its
transport-level retries).  `retryAfter` is the optional `Retry-After` header. -/
structure HttpResponse (α : Type) where
  status : Nat
  retryAfter : Option Nat
  body : α
deriving DecidableEq

/-- The error channel of the embedded client and fetcher.  `http code` models
`requests.exceptions.HTTPError` raised by `response.raise_for_status()` for a
fatal status; `unscripted` marks the scripted response list running out (see
header: it stands for behaviour outside the modelled run, e.g. the unbounded
429 retry loop, and never occurs in the theorems). -/
inductive PipeErr
  | http (code : Nat)
  | unscripted
deriving DecidableEq, Repr

/-- `TMDbClient._make_request`, classifying the next scripted response:
fatal set → raise; 404 → `None` (not an error); 429 → sleep `Retry-After`
(time not tracked here) and retry on the remaining script; other ≥ 400 →
`None`; 2xx/3xx → parsed body.  Network timeouts and connection failures (the
`except` arms, also → `None`) are not scripted here; no claim depends on
them. -/
def make_request {α : Type} : List (HttpResponse α) → Except PipeErr (Option α)
  | [] => .error .unscripted
  | r :: rest =>
    if r.status ∈ FATAL_STATUS_CODES then .error (.http r.status)
    else if r.status = 404 then .ok none
    else if r.status = 429 then make_request rest
    else if r.status ≥ 400 then .ok none
    else .ok (some r.body)

/-- One entry of the `results` array of a search response; only `id` is read
by the fetcher (`search_result.get('id')`). -/
structure SearchResult where
  id : Option Int
deriving DecidableEq

/-- Body of a `/search/movie` response; `results = none` models a payload
without a `'results'` key (or a falsy payload). -/
structure SearchPayload where
  results : Option (List SearchResult)
deriving DecidableEq

/-- A genre object of the detail payload (`{'name': ..., 'id': ...}`). -/
structure RawGenre where
  name : String
  id : Int
deriving DecidableEq

/-- The parsed body of a `/movie/{id}` detail response, restricted to the keys
the fetcher reads; `none` is a missing-or-null key. -/
structure RawMovie where
  id : Option Int
  title : Option String
  overview : Option String
  release_date : Option String
  genres : List RawGenre
  vote_average : Option Int
  vote_count : Option Int
  popularity : Option Int
  original_title : Option String
  original_language : Option String
  runtime : Option Int
  poster_path : Option String
  backdrop_path : Option String
  tagline : Option String
  budget : Option Int
  revenue : Option Int
deriving DecidableEq

/-- A cast member of the credits payload (`actor['name']`, `actor['id']`). -/
structure RawCastMember where
  name : String
  id : Int
deriving DecidableEq

/-- A crew member of the credits payload (`person['name']`,
`person.get('job')`). -/
structure RawCrewMember where
  name : String
  job : Option String
deriving DecidableEq

/-- The parsed body of a `/movie/{id}/credits` response. -/
structure RawCredits where
  cast : List RawCastMember
  crew : List RawCrewMember
deriving DecidableEq

/-- A keyword object of the keywords payload (`kw['name']`). -/
structure RawKeyword where
  name : String
deriving DecidableEq

/-- The parsed body of a `/movie/{id}/keywords` response. -/
structure RawKeywords where
  keywords : List RawKeyword
deriving DecidableEq

/-- The remote API as an oracle: for each logical request, the scripted list
of responses successive attempts receive. -/
structure Remote where
  searchResponses : String → Option Int → List (HttpResponse SearchPayload)
  detailResponses : Int → List (HttpResponse RawMovie)
  creditResponses : Int → List (HttpResponse RawCredits)
  keywordResponses : Int → List (HttpResponse RawKeywords)

/-- `TMDbClient.search_movie`: make the search request and return the first
result, or `None` when the payload is falsy, has no `'results'` key, or has an
empty result list. -/
def search_movie (rem : Remote) (title : String) (year : Option Int) :
    Except PipeErr (Option SearchResult) :=
  match make_request (rem.searchResponses title year) with
  | .error e => .error e
  | .ok none => .ok none
  | .ok (some p) =>
    match p.results with
    | none => .ok none
    | some [] => .ok none
    | some (r :: _) => .ok (some r)

/-- `TMDbClient.get_movie_details`. -/
def get_movie_details (rem : Remote) (movie_id : Int) : Except PipeErr (Option RawMovie) :=
  make_request (rem.detailResponses movie_id)

/-- `TMDbClient.get_movie_credits`. -/
def get_movie_credits (rem : Remote) (movie_id : Int) : Except PipeErr (Option RawCredits) :=
  make_request (rem.creditResponses movie_id)

/-- `TMDbClient.get_movie_keywords`. -/
def get_movie_keywords (rem : Remote) (movie_id : Int) : Except PipeErr (Option RawKeywords) :=
  make_request (rem.keywordResponses movie_id)

/-- `TMDbClient._rate_limit`, idealised over `ℚ` time: given the stored
`last_request_time` and the current `time.time()`, sleep for the remainder of
`RATE_LIMIT_DELAY` if needed (exact sleep, instantaneous re-read of the
clock), returning the new `last_request_time`. -/
def rate_limit (last now : ℚ) : ℚ :=
  if now - last < RATE_LIMIT_DELAY then now + (RATE_LIMIT_DELAY - (now - last)) else now

/-! ## movie_fetcher.py -/

/-- The year extraction of `datetime.strptime(release_date, '%Y-%m-%d').year`:
succeeds exactly on well-formed `%Y-%m-%d` dates (1-4 digit year, 1-2 digit
month in 1..12, 1-2 digit day valid for that month, Gregorian leap rule), else
`None` (a `ValueError` is caught by the fetcher). -/
def parse_release_year (s : String) : Option Int :=
  match s.splitOn "-" with
  | [y, m, d] =>
    if y.length ≥ 1 && y.length ≤ 4 && m.length ≥ 1 && m.length ≤ 2 &&
       d.length ≥ 1 && d.length ≤ 2 &&
       y.all Char.isDigit && m.all Char.isDigit && d.all Char.isDigit then
      match y.toNat?, m.toNat?, d.toNat? with
      | some yn, some mn, some dn =>
        let leap := (yn % 4 = 0 && yn % 100 ≠ 0) || yn % 400 = 0
        let dim : Nat :=
          if mn = 2 then (if leap then 29 else 28)
          else if mn = 4 || mn = 6 || mn = 9 || mn = 11 then 30
          else 31
        if 1 ≤ mn && mn ≤ 12 && 1 ≤ dn && dn ≤ dim then some (yn : Int) else none
      | _, _, _ => none
    else none
  | _ => none

/-- `MovieFetcher._extract_essential_fields` together with
`_extract_important_fields` and `_extract_optional_fields`: pure field
extraction and sanitisation from the detail payload.  `year` is derived from a
truthy `release_date` string, degrading to `None` on parse failure. -/
def extract_basic_fields (data : RawMovie) : Movie :=
  let release_date := data.release_date.getD ""
  { tmdb_id := data.id
    title := some (sanitize_text (data.title.getD ""))
    overview := some (sanitize_text (data.overview.getD ""))
    release_date := some release_date
    year := if release_date = "" then none else parse_release_year release_date
    genres := data.genres.map (·.name)
    genre_ids := data.genres.map (·.id)
    vote_average := data.vote_average
    vote_count := data.vote_count
    popularity := data.popularity
    original_title := some (sanitize_text (data.original_title.getD ""))
    original_language := data.original_language
    runtime := data.runtime
    poster_path := data.poster_path
    backdrop_path := data.backdrop_path
    tagline := some (sanitize_text (data.tagline.getD ""))
    budget := data.budget
    revenue := data.revenue
    cast := []
    cast_ids := []
    director := none
    keywords := []
    fetched_at := none }

/-- `MovieFetcher._extract_credits`: fetch credits; an absent payload yields
the empty defaults; otherwise take the first `TOP_CAST_COUNT` cast members in
order and the first crew member whose job is `"Director"`.  A fatal error from
the client propagates. -/
def extract_credits (rem : Remote) (tmdb_id : Int) :
    Except PipeErr (List String × List Int × Option String) :=
  match get_movie_credits rem tmdb_id with
  | .error e => .error e
  | .ok none => .ok ([], [], none)
  | .ok (some cd) =>
    let top_cast := cd.cast.take TOP_CAST_COUNT
    let directors := (cd.crew.filter fun p => p.job = some "Director").map (·.name)
    .ok (top_cast.map (·.name), top_cast.map (·.id), directors.head?)

/-- `MovieFetcher._extract_keywords`: fetch keywords; an absent payload yields
the empty list; the full list of keyword names otherwise. -/
def extract_keywords (rem : Remote) (tmdb_id : Int) : Except PipeErr (List String) :=
  match get_movie_keywords rem tmdb_id with
  | .error e => .error e
  | .ok none => .ok []
  | .ok (some kd) => .ok (kd.keywords.map (·.name))

/-- `MovieFetcher._enrich_movie_data`: extract the field groups, then the
credit and keyword extensions when the feature flag is on and the extracted
`tmdb_id` is truthy (`if tmdb_id:` — `None` and `0` skip the fetch, leaving
the default empty fields). -/
def enrich_movie_data (rem : Remote) (enable_credits enable_keywords : Bool)
    (data : RawMovie) : Except PipeErr Movie :=
  let base := extract_basic_fields data
  let creditPart : Except PipeErr (List String × List Int × Option String) :=
    if enable_credits then
      match base.tmdb_id with
      | some i => if i = 0 then .ok ([], [], none) else extract_credits rem i
      | none => .ok ([], [], none)
    else .ok ([], [], none)
  match creditPart with
  | .error e => .error e
  | .ok (cast, cast_ids, director) =>
    let keywordPart : Except PipeErr (List String) :=
      if enable_keywords then
        match base.tmdb_id with
        | some i => if i = 0 then .ok [] else extract_keywords rem i
        | none => .ok []
      else .ok []
    match keywordPart with
    | .error e => .error e
    | .ok kws =>
      .ok { base with cast := cast, cast_ids := cast_ids, director := director,
                      keywords := kws }

/-- `MovieFetcher.fetch_by_id` (cache enabled, as in the pipeline's default
construction): cached hit short-circuits; otherwise fetch details (absence →
`None`), enrich, validate (rejection → `None`, nothing cached), and on success
store through `set_movie` and return the stored record.  The cache state is
threaded through every outcome, including raised errors, since the Python
cache object retains its counter mutations when an exception propagates. -/
def fetch_by_id (rem : Remote) (enable_credits enable_keywords : Bool)
    (tmdb_id : Int) (s : CacheState) : Except PipeErr (Option Movie) × CacheState :=
  let (cached, s1) := get_by_id tmdb_id s
  match cached with
  | some m => (.ok (some m), s1)
  | none =>
    match get_movie_details rem tmdb_id with
    | .error e => (.error e, s1)
    | .ok none => (.ok none, s1)
    | .ok (some data) =>
      match enrich_movie_data rem enable_credits enable_keywords data with
      | .error e => (.error e, s1)
      | .ok enriched =>
        if (validate_movie enriched).1 then
          let (final, s2) := set_movie enriched s1
          (.ok (some final), s2)
        else (.ok none, s1)

/-- `MovieFetcher.fetch_by_title`: cached hit on the title key
short-circuits; otherwise search, take the first result unconditionally, and
delegate to `fetch_by_id` on its id when that id is truthy. -/
def fetch_by_title (rem : Remote) (enable_credits enable_keywords : Bool)
    (title : String) (year : Option Int) (s : CacheState) :
    Except PipeErr (Option Movie) × CacheState :=
  let (cached, s1) := get_by_title title year s
  match cached with
  | some m => (.ok (some m), s1)
  | none =>
    match search_movie rem title year with
    | .error e => (.error e, s1)
    | .ok none => (.ok none, s1)
    | .ok (some sr) =>
      match sr.id with
      | none => (.ok none, s1)
      | some i => if i = 0 then (.ok none, s1)
                  else fetch_by_id rem enable_credits enable_keywords i s1

/-! ## main.py -/

/-- One input row (`title`, optional `year`, optional `tmdb_id` columns). -/
structure InputRow where
  title : Option String
  year : Option Int
  tmdb_id : Option Int
deriving DecidableEq

/-- The pipeline's statistics counters (`duration` and the attached
`cache_stats` snapshot are wall-clock/derived values, not modelled). -/
structure PipelineStats where
  total : Nat
  success : Nat
  failed : Nat
  invalid : Nat
  from_cache : Nat
deriving DecidableEq, Repr

/-- `TMDbDataPipeline._fetch_movie`: prefer the id path when `tmdb_id` is
truthy and valid, else the title path; the surrounding
`except Exception: return None` converts *any* raised error — including the
fatal-status `HTTPError` — into an absent record. -/
def pipeline_fetch_movie (rem : Remote) (enable_credits enable_keywords : Bool)
    (row : InputRow) (s : CacheState) : Option Movie × CacheState :=
  let attempt : Except PipeErr (Option Movie) × CacheState :=
    match row.tmdb_id with
    | some i =>
      if i ≠ 0 && is_valid_tmdb_id i then
        fetch_by_id rem enable_credits enable_keywords i s
      else fetch_by_title rem enable_credits enable_keywords (row.title.getD "") row.year s
    | none => fetch_by_title rem enable_credits enable_keywords (row.title.getD "") row.year s
  match attempt with
  | (.ok m, s') => (m, s')
  | (.error _, s') => (none, s')

/-- The per-record loop of `TMDbDataPipeline.process_dataset`: fetch each row,
append successes to the results, and bump `success`/`failed`.  Checkpointing
and the progress bar are I/O and not modelled. -/
def process_loop (rem : Remote) (enable_credits enable_keywords : Bool) :
    List InputRow → CacheState → PipelineStats → List Movie →
    List Movie × PipelineStats × CacheState
  | [], s, st, acc => (acc.reverse, st, s)
  | row :: rest, s, st, acc =>
    match pipeline_fetch_movie rem enable_credits enable_keywords row s with
    | (some m, s') =>
      process_loop rem enable_credits enable_keywords rest s'
        { st with success := st.success + 1 } (m :: acc)
    | (none, s') =>
      process_loop rem enable_credits enable_keywords rest s'
        { st with failed := st.failed + 1 } acc

/-- `TMDbDataPipeline.process_dataset`: run the loop over all input rows with
counters starting at zero (`__init__`), set `total` up front and `from_cache`
from the cache's hit counter at the end.  Returns the results list, the final
statistics and the final cache state. -/
def process_dataset (rem : Remote) (enable_credits enable_keywords : Bool)
    (rows : List InputRow) (s : CacheState) :
    List Movie × PipelineStats × CacheState :=
  let init : PipelineStats :=
    { total := rows.length, success := 0, failed := 0, invalid := 0, from_cache := 0 }
  let (results, st, s') := process_loop rem enable_credits enable_keywords rows s init []
  (results, { st with from_cache := s'.hits }, s')

/-! ## Concrete fixtures used by the claim theorems -/

/-- An empty movie record: every field missing/empty. -/
def baseMovie : Movie :=
  { tmdb_id := none, title := none, overview := none, release_date := none,
    year := none, genres := [], genre_ids := [], vote_average := none,
    vote_count := none, popularity := none, original_title := none,
    original_language := none, runtime := none, poster_path := none,
    backdrop_path := none, tagline := none, budget := none, revenue := none,
    cast := [], cast_ids := [], director := none, keywords := [],
    fetched_at := none }

/-- A freshly initialised cache (empty dict, zero counters). -/
def empty_cache : CacheState :=
  { cache := [], hits := 0, misses := 0, clock := 0 }

/-- A detail payload with every key missing. -/
def base_raw : RawMovie :=
  { id := none, title := none, overview := none, release_date := none,
    genres := [], vote_average := none, vote_count := none, popularity := none,
    original_title := none, original_language := none, runtime := none,
    poster_path := none, backdrop_path := none, tagline := none,
    budget := none, revenue := none }

/-- The timestamp of the next request: the previous request happened at `t`
and the caller arrives `e` seconds later (`time.time() = t + e`), then
`_rate_limit` sleeps out the remainder of the interval. -/
def next_request_time (t e : ℚ) : ℚ :=
  rate_limit t (t + e)

/-- The claim's hypothesis, formalised from its words: two titles "differ only
in casing and/or whitespace" iff they agree after removing all whitespace and
lowercasing. -/
def differ_only_in_case_or_whitespace (s1 s2 : String) : Bool :=
  (s1.data.filter fun c => !pyIsSpace c).map Char.toLower ==
  (s2.data.filter fun c => !pyIsSpace c).map Char.toLower

/-- A record with both identities, lacking a fetch timestamp (as every record
reaching `set_movie` from the fetcher does). -/
def c6_movie : Movie :=
  { baseMovie with
      tmdb_id := some 5
      title := some "Inception"
      overview := some "A thief who steals corporate secrets."
      release_date := some "2010-07-16"
      year := some 2010
      genres := ["Action"] }

/-- `N` successive `get` calls on the given keys. -/
def lookup_many (ks : List String) (s : CacheState) : CacheState :=
  ks.foldl (fun t k => (cacheGet k t).2) s

/-- `M` successive `get` calls on one key. -/
def get_repeat (k : String) : Nat → CacheState → CacheState
  | 0, s => s
  | n + 1, s => get_repeat k n (cacheGet k s).2

/-- A remote whose detail endpoint always answers 404. -/
def c8_remote : Remote :=
  { searchResponses := fun _ _ => []
    detailResponses := fun _ => [{ status := 404, retryAfter := none, body := base_raw }]
    creditResponses := fun _ => []
    keywordResponses := fun _ => [] }

/-- A remote whose detail endpoint always answers 401. -/
def c1_remote : Remote :=
  { searchResponses := fun _ _ => []
    detailResponses := fun _ => [{ status := 401, retryAfter := none, body := base_raw }]
    creditResponses := fun _ => []
    keywordResponses := fun _ => [] }

/-- An input row carrying a numeric id. -/
def c1_row : InputRow :=
  { title := some "Inception", year := some 2010, tmdb_id := some 7 }

/-- A detail payload that fetches fine but fails validation (9-character
overview). -/
def c2_raw : RawMovie :=
  { base_raw with
      id := some 5
      title := some "Test Movie"
      overview := some "Too short"
      release_date := some "2023-01-01"
      genres := [{ name := "Action", id := 28 }] }

/-- A remote that successfully serves `c2_raw` with empty credit/keyword
payloads. -/
def c2_remote : Remote :=
  { searchResponses := fun _ _ => []
    detailResponses := fun _ => [{ status := 200, retryAfter := none, body := c2_raw }]
    creditResponses := fun _ => [{ status := 200, retryAfter := none,
                                   body := { cast := [], crew := [] } }]
    keywordResponses := fun _ => [{ status := 200, retryAfter := none,
                                    body := { keywords := [] } }] }

/-- The input row for the C2 scenario. -/
def c2_row : InputRow :=
  { title := some "Test Movie", year := some 2023, tmdb_id := some 5 }

/-- The record the fetcher builds from `c2_raw` (empty credit/keyword
extensions). -/
def c2_enriched : Movie :=
  extract_basic_fields c2_raw

/-- The claim's reject condition, formalised from its words: a required field
null/missing, or synopsis length below 20, or year outside [1888, 2030], or
genre count 0. -/
def claim_rejects (m : Movie) : Bool :=
  m.tmdb_id.isNone || m.title.isNone || m.overview.isNone || m.release_date.isNone ||
  decide ((m.overview.getD "").length < MIN_OVERVIEW_LENGTH) ||
  (match m.year with
   | some y => decide (y < MIN_YEAR) || decide (y > MAX_YEAR)
   | none => false) ||
  decide (m.genres.length = 0)

/-- A movie record passing all four of the claim's conditions whose overview
is 20 spaces. -/
def c3_movie : Movie :=
  { baseMovie with
      tmdb_id := some 1
      title := some "Test"
      overview := some "                    "
      release_date := some "2010-07-16"
      year := some 2010
      genres := ["Drama"] }

/-- Goodness of a word list: nonempty words of non-whitespace, non-quote
characters — the shape of `sanitize_text`'s output. -/
def GoodWords (ws : List (List Char)) : Prop :=
  ∀ w ∈ ws, w ≠ [] ∧ ∀ c ∈ w, pyIsSpace c = false ∧ c ≠ '"'

/-- The valid movie of the repository's own `tests/test_validators.py`. -/
def test_movie_valid : Movie :=
  { baseMovie with
      tmdb_id := some 12345
      title := some "Test Movie"
      overview := some "This is a test movie with enough characters in the overview."
      release_date := some "2023-01-01"
      year := some 2023
      genres := ["Action", "Drama"] }

/-! ## Claim C10: clear() resets the counters -/

/-- **C10** (confirmed).  `clear()` empties the cache map and resets both
counters, so `get_stats()` immediately afterwards reports size 0, hits 0,
misses 0 and hit_rate 0: the hit/miss history does not survive a clear. -/
theorem clear_resets_stats (s : CacheState) :
    get_stats (cacheClear s) = { size := 0, hits := 0, misses := 0, hit_rate := 0 } :=
  rfl

/-! ## Claim C9: rate limiter spacing -/

/-- Pointwise pacing bound of `_rate_limit`. -/
theorem rate_limit_lower_bound (last now : ℚ) (_h : last ≤ now) :
    RATE_LIMIT_DELAY ≤ rate_limit last now - last := by
  unfold rate_limit
  split
  · -- the sleep tops the gap up to exactly the interval
    ring_nf
    linarith
  · -- at least the interval had already elapsed
    next hge => linarith [not_lt.mp hge]

/-- **C9** (confirmed).  The rate limiter never lets two consecutive requests
start closer together than `RATE_LIMIT_DELAY = 1/45 s`: before each request
the client sleeps out whatever remainder of the interval has not elapsed, so
for every sequence of arrival gaps `es` (each ≥ 0) the consecutive request
timestamps differ by at least the interval (idealised exact clock and sleep,
as the spec's "modulo scheduler jitter" allows). -/
theorem rate_limiter_min_interval :
    (∀ last now : ℚ, last ≤ now → RATE_LIMIT_DELAY ≤ rate_limit last now - last) ∧
    (∀ (t0 : ℚ) (es : List ℚ), (∀ e ∈ es, 0 ≤ e) →
      (List.scanl next_request_time t0 es).Chain' fun a b => RATE_LIMIT_DELAY ≤ b - a) := by
  constructor
  · exact rate_limit_lower_bound
  · intro t0 es
    induction es generalizing t0 with
    | nil => intro _; simp [List.scanl]
    | cons e es ih =>
      intro h
      have hsc : List.scanl next_request_time t0 (e :: es) =
          t0 :: List.scanl next_request_time (next_request_time t0 e) es := by
        simp [List.scanl]
      rw [hsc, List.chain'_cons']
      refine ⟨?_, ih _ fun e' he' => h e' (List.mem_cons_of_mem e he')⟩
      intro y hy
      have hhd : (List.scanl next_request_time (next_request_time t0 e) es).head? =
          some (next_request_time t0 e) := by
        cases es <;> simp [List.scanl]
      rw [hhd, Option.mem_some_iff] at hy
      subst hy
      exact rate_limit_lower_bound t0 (t0 + e) (by linarith [h e (List.mem_cons_self e es)])

/-- Witness for C9 at a concrete input: previous request at `t = 0`, caller
arrives immediately. -/
theorem rate_limiter_min_interval_witness :
    RATE_LIMIT_DELAY ≤ rate_limit 0 0 - 0 :=
  rate_limiter_min_interval.1 0 0 le_rfl

/-! ## Claim C5: title-key normalisation -/

/-- **C5 counterexample.**  `_make_title_key` only lowercases and strips the
*ends* of the title, so two titles that differ only in internal whitespace map
to different keys, refuting the claim as stated. -/
theorem title_key_cex :
    differ_only_in_case_or_whitespace "The  Matrix" "The Matrix" = true ∧
    make_title_key "The  Matrix" (some 1999) ≠ make_title_key "The Matrix" (some 1999) := by
  constructor
  · decide
  · decide

/-- **C5** (corrected).  Title-key normalisation is insensitive to casing and
*leading/trailing* whitespace: titles equal after lowercasing and stripping
map to the same key for every year — in particular `("Inception", 2010)` and
`("  INCEPTION  ", 2010)` agree. -/
theorem title_key_normalization :
    (∀ (t1 t2 : String) (year : Option Int),
      pyStripString (pyLowerString t1) = pyStripString (pyLowerString t2) →
      make_title_key t1 year = make_title_key t2 year) ∧
    make_title_key "Inception" (some 2010) = make_title_key "  INCEPTION  " (some 2010) := by
  constructor
  · intro t1 t2 year h
    simp only [make_title_key, h]
  · decide

/-- Witness for C5 at a concrete input. -/
theorem title_key_normalization_witness :
    make_title_key "A" (some 1) = make_title_key " a" (some 1) :=
  title_key_normalization.1 "A" " a" (some 1) (by decide)

/-! ## Association-list lemmas -/

theorem lookup_update_self (k : String) (v : Movie) (l : List (String × Movie)) :
    lookupAssoc k (updateAssoc k v l) = some v := by
  induction l with
  | nil => simp [updateAssoc, lookupAssoc]
  | cons p t ih =>
    obtain ⟨k', v'⟩ := p
    by_cases h : k' = k
    · simp [updateAssoc, lookupAssoc, h]
    · simp [updateAssoc, lookupAssoc, h, ih]

theorem lookup_update_ne (k k' : String) (hne : k' ≠ k) (v : Movie)
    (l : List (String × Movie)) :
    lookupAssoc k (updateAssoc k' v l) = lookupAssoc k l := by
  induction l with
  | nil => simp [updateAssoc, lookupAssoc, hne]
  | cons p t ih =>
    obtain ⟨k'', v''⟩ := p
    by_cases h : k'' = k'
    · subst h
      simp [updateAssoc, lookupAssoc, hne]
    · simp [updateAssoc, lookupAssoc, h, ih]

/-! ## Claim C6: cache round-trip -/

/-- **C6 counterexample.**  `set` stamps `fetched_at` into the stored dict, so
the lookup after `set_movie(r)` does not return `r` as it was passed in: it
returns `r` with the store-time timestamp added, refuting the exact
round-trip claim. -/
theorem cache_round_trip_cex :
    (get_by_id 5 (set_movie c6_movie empty_cache).2).1 ≠ some c6_movie ∧
    (get_by_id 5 (set_movie c6_movie empty_cache).2).1 =
      some { c6_movie with fetched_at := some 1 } := by
  constructor
  · decide
  · decide

/-- **C6** (corrected).  For every record with both `tmdb_id` and `title`
present, after `set_movie(r)` the lookups under the numeric-id key and under
the title+year key both return the stored record, which equals `r` in every
field except `fetched_at`, overwritten with the store-time timestamp (the
second `set` call's tick, since both entries alias one dict). -/
theorem cache_round_trip (m : Movie) (s : CacheState) (i : Int) (t : String)
    (hid : m.tmdb_id = some i) (ht : m.title = some t) :
    (set_movie m s).1 = { m with fetched_at := some (s.clock + 1) } ∧
    (get_by_id i (set_movie m s).2).1 = some ({ m with fetched_at := some (s.clock + 1) }) ∧
    (get_by_title t m.year (set_movie m s).2).1 =
      some ({ m with fetched_at := some (s.clock + 1) }) := by
  have hsm : set_movie m s =
      ({ m with fetched_at := some (s.clock + 1) },
       { s with
          cache := updateAssoc (make_id_key i) { m with fetched_at := some (s.clock + 1) }
            (updateAssoc (make_title_key t m.year) { m with fetched_at := some (s.clock + 1) }
              (updateAssoc (make_id_key i) { m with fetched_at := some s.clock } s.cache))
          clock := s.clock + 2 }) := by
    simp [set_movie, hid, ht, cacheSet]
  refine ⟨by rw [hsm], ?_, ?_⟩
  · rw [hsm]
    simp [get_by_id, cacheGet, lookup_update_self]
  · rw [hsm]
    by_cases hk : make_id_key i = make_title_key t m.year
    · simp [get_by_title, cacheGet, ← hk, lookup_update_self]
    · simp [get_by_title, cacheGet, lookup_update_ne _ _ hk, lookup_update_self]

/-- Witness for C6 at a concrete input. -/
theorem cache_round_trip_witness :
    (set_movie c6_movie empty_cache).1 = { c6_movie with fetched_at := some 1 } ∧
    (get_by_id 5 (set_movie c6_movie empty_cache).2).1 =
      some ({ c6_movie with fetched_at := some 1 }) ∧
    (get_by_title "Inception" c6_movie.year (set_movie c6_movie empty_cache).2).1 =
      some ({ c6_movie with fetched_at := some 1 }) :=
  cache_round_trip c6_movie empty_cache 5 "Inception" rfl rfl

/-! ## Claim C7: hit/miss accounting -/

theorem cacheGet_cache_eq (k : String) (s : CacheState) :
    ((cacheGet k s).2).cache = s.cache := by
  unfold cacheGet
  cases lookupAssoc k s.cache <;> rfl

theorem lookup_many_spec (ks : List String) (s : CacheState)
    (habs : ∀ k ∈ ks, lookupAssoc k s.cache = none) :
    lookup_many ks s =
      { s with misses := s.misses + ks.length } := by
  induction ks generalizing s with
  | nil => simp [lookup_many]
  | cons k ks ih =>
    have hk : lookupAssoc k s.cache = none := habs k (List.mem_cons_self k ks)
    have hstep : (cacheGet k s).2 = { s with misses := s.misses + 1 } := by
      simp [cacheGet, hk]
    have habs' : ∀ x ∈ ks, lookupAssoc x ((cacheGet k s).2).cache = none := by
      intro x hx
      rw [cacheGet_cache_eq]
      exact habs x (List.mem_cons_of_mem k hx)
    calc lookup_many (k :: ks) s = lookup_many ks (cacheGet k s).2 := rfl
      _ = { (cacheGet k s).2 with misses := ((cacheGet k s).2).misses + ks.length } :=
          ih _ habs'
      _ = { s with misses := s.misses + (ks.length + 1) } := by
          rw [hstep]
          simp
          omega

theorem get_repeat_spec (k : String) (M : Nat) (s : CacheState) (v : Movie)
    (hv : lookupAssoc k s.cache = some v) :
    get_repeat k M s = { s with hits := s.hits + M } := by
  induction M generalizing s with
  | zero => simp [get_repeat]
  | succ n ih =>
    have hstep : (cacheGet k s).2 = { s with hits := s.hits + 1 } := by
      simp [cacheGet, hv]
    calc get_repeat k (n + 1) s = get_repeat k n (cacheGet k s).2 := rfl
      _ = { (cacheGet k s).2 with hits := ((cacheGet k s).2).hits + n } := by
          refine ih _ ?_
          rw [cacheGet_cache_eq]
          exact hv
      _ = { s with hits := s.hits + (n + 1) } := by
          rw [hstep]
          simp
          omega

/-- **C7** (confirmed).  Every `get` bumps exactly one of `hits`/`misses` by
one (hit iff the key is present) and leaves the map untouched; `set` (and
`set_movie`) never changes either counter; consequently, starting from zeroed
counters, `N` lookups of absent keys followed by one store and `M` lookups of
the stored key end with `misses = N` and `hits = M`. -/
theorem cache_hit_miss_accounting :
    (∀ (k : String) (s : CacheState),
      (∃ v, lookupAssoc k s.cache = some v ∧
        cacheGet k s = (some v, { s with hits := s.hits + 1 })) ∨
      (lookupAssoc k s.cache = none ∧
        cacheGet k s = (none, { s with misses := s.misses + 1 }))) ∧
    (∀ (k : String) (v : Movie) (s : CacheState),
      ((cacheSet k v s).2).hits = s.hits ∧ ((cacheSet k v s).2).misses = s.misses) ∧
    (∀ (m : Movie) (s : CacheState),
      ((set_movie m s).2).hits = s.hits ∧ ((set_movie m s).2).misses = s.misses) ∧
    (∀ (ks : List String) (s : CacheState) (k : String) (v : Movie) (M : Nat),
      s.hits = 0 → s.misses = 0 → (∀ x ∈ ks, lookupAssoc x s.cache = none) →
      (get_repeat k M ((cacheSet k v (lookup_many ks s)).2)).misses = ks.length ∧
      (get_repeat k M ((cacheSet k v (lookup_many ks s)).2)).hits = M) := by
  refine ⟨?_, ?_, ?_, ?_⟩
  · intro k s
    cases hv : lookupAssoc k s.cache with
    | some v => exact .inl ⟨v, rfl, by simp [cacheGet, hv]⟩
    | none => exact .inr ⟨rfl, by simp [cacheGet, hv]⟩
  · intro k v s
    exact ⟨rfl, rfl⟩
  · intro m s
    unfold set_movie
    cases m.tmdb_id <;> cases hmt : Movie.title _ <;> simp_all [cacheSet]
  · intro ks s k v M h0 m0 habs
    rw [lookup_many_spec ks s habs]
    have hset : (cacheSet k v { s with misses := s.misses + ks.length }).2 =
        { s with
            misses := s.misses + ks.length
            cache := updateAssoc k { v with fetched_at := some s.clock } s.cache
            clock := s.clock + 1 } := by
      simp [cacheSet]
    rw [hset, get_repeat_spec k M _ { v with fetched_at := some s.clock }
      (by simp [lookup_update_self])]
    simp [h0, m0]

/-- Witness for C7 at a concrete input: two absent-key lookups, one store,
three lookups of the stored key. -/
theorem cache_hit_miss_accounting_witness :
    (get_repeat "id_5" 3 ((cacheSet "id_5" baseMovie
        (lookup_many ["a", "b"] empty_cache)).2)).misses = 2 ∧
    (get_repeat "id_5" 3 ((cacheSet "id_5" baseMovie
        (lookup_many ["a", "b"] empty_cache)).2)).hits = 3 :=
  cache_hit_miss_accounting.2.2.2 ["a", "b"] empty_cache "id_5" baseMovie 3
    rfl rfl (by decide)

/-! ## Claim C8: 404 on a numeric-id lookup -/

/-- **C8 counterexample.**  On a 404 detail response `fetch_by_id` returns
absent without raising and writes no cache entry, but the cache *state* is not
completely unchanged: the failed lookup bumped the miss counter. -/
theorem fetch_404_cex :
    (fetch_by_id c8_remote true true 9 empty_cache).1 = .ok none ∧
    (fetch_by_id c8_remote true true 9 empty_cache).2 ≠ empty_cache ∧
    ((fetch_by_id c8_remote true true 9 empty_cache).2).cache = empty_cache.cache := by
  refine ⟨rfl, by decide, rfl⟩

/-- **C8** (corrected).  When the remote answers 404 for a numeric-id detail
lookup (and the id is not cached, so the request is actually made),
`fetch_by_id` returns absent without raising, and no cache entry is written —
the cache map is unchanged; the only state change is the miss counter bumped
by the failed cache lookup. -/
theorem fetch_404_behaviour (rem : Remote) (ec ek : Bool) (i : Int) (s : CacheState)
    (ra : Option Nat) (body : RawMovie) (rest : List (HttpResponse RawMovie))
    (hdet : rem.detailResponses i = { status := 404, retryAfter := ra, body := body } :: rest)
    (hmiss : lookupAssoc (make_id_key i) s.cache = none) :
    fetch_by_id rem ec ek i s = (.ok none, { s with misses := s.misses + 1 }) := by
  have hreq : get_movie_details rem i = .ok none := by
    rw [get_movie_details, hdet]
    rfl
  unfold fetch_by_id
  simp [get_by_id, cacheGet, hmiss, hreq]

/-- Witness for C8 at a concrete input. -/
theorem fetch_404_behaviour_witness :
    fetch_by_id c8_remote true true 9 empty_cache =
      (.ok none, { empty_cache with misses := 1 }) :=
  fetch_404_behaviour c8_remote true true 9 empty_cache none base_raw [] rfl rfl

/-- Unfolding equation for one step of the per-record loop. -/
theorem process_loop_cons_eq (rem : Remote) (ec ek : Bool) (row : InputRow)
    (rows : List InputRow) (s : CacheState) (st : PipelineStats) (acc : List Movie) :
    process_loop rem ec ek (row :: rows) s st acc =
      match pipeline_fetch_movie rem ec ek row s with
      | (some m, s') =>
        process_loop rem ec ek rows s' { st with success := st.success + 1 } (m :: acc)
      | (none, s') =>
        process_loop rem ec ek rows s' { st with failed := st.failed + 1 } acc :=
  rfl

/-! ## Claim C1: fatal HTTP statuses -/

/-- **C1 counterexample.**  On a 401 detail response the client does raise,
but `TMDbDataPipeline._fetch_movie`'s blanket `except Exception` catches the
error and converts it to an absent record: a two-row run completes normally
with both records counted as failed, instead of aborting. -/
theorem fatal_status_cex :
    make_request (c1_remote.detailResponses 7) = .error (.http 401) ∧
    pipeline_fetch_movie c1_remote true true c1_row empty_cache =
      (none, { empty_cache with misses := 1 }) ∧
    process_dataset c1_remote true true [c1_row, c1_row] empty_cache =
      ([], { total := 2, success := 0, failed := 2, invalid := 0, from_cache := 0 },
       { empty_cache with misses := 2 }) :=
  ⟨rfl, rfl, rfl⟩

/-- **C1** (corrected).  A fatal status (401/403) makes the client raise
immediately with no retry, and the error propagates uncaught out of
`MovieFetcher.fetch_by_id`; but the per-record handler in
`TMDbDataPipeline._fetch_movie` catches every exception and converts it to an
absent record, so the loop counts the record as failed and continues with the
remaining rows — the run does not abort. -/
theorem fatal_status_caught (code : Nat) (hcode : code ∈ FATAL_STATUS_CODES)
    (ra : Option Nat) (body : RawMovie) (rest : List (HttpResponse RawMovie))
    (rem : Remote) (ec ek : Bool) (i : Int) (s : CacheState)
    (hdet : rem.detailResponses i = { status := code, retryAfter := ra, body := body } :: rest)
    (hmiss : lookupAssoc (make_id_key i) s.cache = none)
    (hpos : 0 < i) (row : InputRow) (hrow : row.tmdb_id = some i)
    (rows : List InputRow) (st : PipelineStats) (acc : List Movie) :
    make_request (rem.detailResponses i) = .error (.http code) ∧
    fetch_by_id rem ec ek i s = (.error (.http code), { s with misses := s.misses + 1 }) ∧
    pipeline_fetch_movie rem ec ek row s = (none, { s with misses := s.misses + 1 }) ∧
    process_loop rem ec ek (row :: rows) s st acc =
      process_loop rem ec ek rows { s with misses := s.misses + 1 }
        { st with failed := st.failed + 1 } acc := by
  have hreq : make_request (rem.detailResponses i) = .error (.http code) := by
    rw [hdet]
    unfold make_request
    rw [if_pos hcode]
  have hfetch : fetch_by_id rem ec ek i s =
      (.error (.http code), { s with misses := s.misses + 1 }) := by
    unfold fetch_by_id
    simp [get_by_id, cacheGet, hmiss, get_movie_details, hreq]
  have hpf : pipeline_fetch_movie rem ec ek row s =
      (none, { s with misses := s.misses + 1 }) := by
    unfold pipeline_fetch_movie
    rw [hrow]
    have h1 : ¬i = 0 := by omega
    have h2 : is_valid_tmdb_id i = true := by
      simp only [is_valid_tmdb_id, decide_eq_true_eq]
      exact hpos
    simp [h1, h2, hfetch]
  refine ⟨hreq, hfetch, hpf, ?_⟩
  rw [process_loop_cons_eq, hpf]

/-- Witness for C1 at a concrete input. -/
theorem fatal_status_caught_witness :
    make_request (c1_remote.detailResponses 7) = .error (.http 401) ∧
    fetch_by_id c1_remote true true 7 empty_cache =
      (.error (.http 401), { empty_cache with misses := 1 }) ∧
    pipeline_fetch_movie c1_remote true true c1_row empty_cache =
      (none, { empty_cache with misses := 1 }) ∧
    process_loop c1_remote true true [c1_row] empty_cache
        { total := 1, success := 0, failed := 0, invalid := 0, from_cache := 0 } [] =
      process_loop c1_remote true true [] { empty_cache with misses := 1 }
        { total := 1, success := 0, failed := 1, invalid := 0, from_cache := 0 } [] :=
  fatal_status_caught 401 (by decide) none base_raw [] c1_remote true true 7
    empty_cache rfl rfl (by decide) c1_row rfl [] _ []

/-! ## Claim C2: the `invalid` statistics counter -/

/-- **C2 counterexample.**  A record fetched successfully from the remote and
rejected by the validator is excluded from the output, but the pipeline's
`invalid` counter stays 0 — the rejection is counted under `failed`, not
separately. -/
theorem invalid_counter_cex :
    get_movie_details c2_remote 5 = .ok (some c2_raw) ∧
    enrich_movie_data c2_remote true true c2_raw = .ok c2_enriched ∧
    (validate_movie c2_enriched).1 = false ∧
    process_dataset c2_remote true true [c2_row] empty_cache =
      ([], { total := 1, success := 0, failed := 1, invalid := 0, from_cache := 0 },
       { empty_cache with misses := 1 }) :=
  ⟨rfl, rfl, by decide, rfl⟩

theorem process_loop_invalid_eq (rem : Remote) (ec ek : Bool) (rows : List InputRow)
    (s : CacheState) (st : PipelineStats) (acc : List Movie) :
    ((process_loop rem ec ek rows s st acc).2.1).invalid = st.invalid := by
  induction rows generalizing s st acc with
  | nil => rfl
  | cons row rest ih =>
    unfold process_loop
    cases pipeline_fetch_movie rem ec ek row s with
    | mk m? s' => cases m? <;> simp [ih]

/-- **C2** (corrected).  A record fetched successfully but rejected by the
validator is excluded from the output and not cached, but it increments the
`failed` counter together with outright fetch failures; the `invalid` counter
is initialised to 0 and never incremented anywhere in the pipeline. -/
theorem validation_rejected_accounting (rem : Remote) (ec ek : Bool) (i : Int)
    (s : CacheState) (data : RawMovie) (enr : Movie)
    (hmiss : lookupAssoc (make_id_key i) s.cache = none)
    (hdet : get_movie_details rem i = .ok (some data))
    (henr : enrich_movie_data rem ec ek data = .ok enr)
    (hrej : (validate_movie enr).1 = false)
    (row : InputRow) (hrow : row.tmdb_id = some i) (hpos : 0 < i)
    (rows : List InputRow) (st : PipelineStats) (acc : List Movie) :
    fetch_by_id rem ec ek i s = (.ok none, { s with misses := s.misses + 1 }) ∧
    process_loop rem ec ek (row :: rows) s st acc =
      process_loop rem ec ek rows { s with misses := s.misses + 1 }
        { st with failed := st.failed + 1 } acc ∧
    (∀ (rows' : List InputRow) (s' : CacheState),
      ((process_dataset rem ec ek rows' s').2.1).invalid = 0) := by
  have hfetch : fetch_by_id rem ec ek i s =
      (.ok none, { s with misses := s.misses + 1 }) := by
    unfold fetch_by_id
    simp [get_by_id, cacheGet, hmiss, hdet, henr, hrej]
  have hpf : pipeline_fetch_movie rem ec ek row s =
      (none, { s with misses := s.misses + 1 }) := by
    unfold pipeline_fetch_movie
    rw [hrow]
    have h1 : ¬i = 0 := by omega
    have h2 : is_valid_tmdb_id i = true := by
      simp only [is_valid_tmdb_id, decide_eq_true_eq]
      exact hpos
    simp [h1, h2, hfetch]
  refine ⟨hfetch, ?_, ?_⟩
  · rw [process_loop_cons_eq, hpf]
  · intro rows' s'
    unfold process_dataset
    simp [process_loop_invalid_eq]

/-- Witness for C2 at a concrete input. -/
theorem validation_rejected_accounting_witness :
    fetch_by_id c2_remote true true 5 empty_cache =
      (.ok none, { empty_cache with misses := 1 }) ∧
    process_loop c2_remote true true [c2_row] empty_cache
        { total := 1, success := 0, failed := 0, invalid := 0, from_cache := 0 } [] =
      process_loop c2_remote true true [] { empty_cache with misses := 1 }
        { total := 1, success := 0, failed := 1, invalid := 0, from_cache := 0 } [] ∧
    (∀ (rows' : List InputRow) (s' : CacheState),
      ((process_dataset c2_remote true true rows' s').2.1).invalid = 0) :=
  validation_rejected_accounting c2_remote true true 5 empty_cache c2_raw
    c2_enriched rfl rfl rfl (by decide) c2_row rfl (by decide) [] _ []

/-! ## Claim C3: the validator's accept/reject characterisation -/

/-- **C3 counterexample.**  A whitespace-only overview of exactly 20
characters fails none of the claim's four reject conditions, yet
`validate_movie` rejects it (check 3: the trimmed overview is empty), refuting
the claimed exact characterisation. -/
theorem validate_movie_cex :
    claim_rejects c3_movie = false ∧
    validate_movie c3_movie = (false, "Overview é string vazia") :=
  ⟨by decide, by decide⟩

/-- **C3** (corrected).  `validate_movie` rejects exactly when a required
field (`tmdb_id`, `title`, `overview`, `release_date`) is null/missing, or the
overview has fewer than 20 characters, or the overview trims to the empty
string, or the year is present and outside [1888, 2030], or the genre count is
0; in all other cases it accepts, returning `(true, "")`. -/
theorem validate_movie_cases (m : Movie) :
    validate_movie m = (true, "") ∨ (validate_movie m).1 = false := by
  unfold validate_movie
  simp only [Bool.or_eq_true, decide_eq_true_eq]
  repeat' split
  all_goals first | exact .inl rfl | exact .inr rfl

theorem validate_movie_characterisation (m : Movie) :
    ((validate_movie m).1 = false ↔
      (m.tmdb_id = none ∨ m.title = none ∨ m.overview = none ∨ m.release_date = none ∨
       (m.overview.getD "").length < MIN_OVERVIEW_LENGTH ∨
       pyStripString (m.overview.getD "") = "" ∨
       (∃ y, m.year = some y ∧ (y < MIN_YEAR ∨ MAX_YEAR < y)) ∨
       m.genres.length = 0)) ∧
    ((validate_movie m).1 = true → validate_movie m = (true, "")) := by
  constructor
  · unfold validate_movie
    cases htid : m.tmdb_id <;> cases htit : m.title <;> cases hov : m.overview <;>
      cases hrd : m.release_date <;> cases hyr : m.year <;>
        simp_all [MIN_OVERVIEW_LENGTH, MIN_YEAR, MAX_YEAR, MIN_GENRES,
          List.isEmpty_iff, List.length_eq_zero] <;>
          split_ifs <;> simp_all
  · intro h
    rcases validate_movie_cases m with hc | hc
    · exact hc
    · rw [hc] at h
      simp at h

/-- Witness for C3 at a concrete input: a fully valid record is accepted with
an empty message. -/
theorem validate_movie_characterisation_witness :
    validate_movie c6_movie = (true, "") :=
  (validate_movie_characterisation c6_movie).2 (by decide)

/-! ## Claim C4: sanitize_text — supporting lemmas -/

theorem nonspace_ne_space {c : Char} (h : pyIsSpace c = false) : c ≠ ' ' := by
  rintro rfl
  simp [pyIsSpace] at h

theorem nonspace_ne_newline {c : Char} (h : pyIsSpace c = false) : c ≠ '\n' := by
  rintro rfl
  simp [pyIsSpace] at h

theorem nonspace_ne_return {c : Char} (h : pyIsSpace c = false) : c ≠ '\r' := by
  rintro rfl
  simp [pyIsSpace] at h

theorem pySplitAux_nil_eq (acc : List Char) :
    pySplitAux [] acc = if acc.isEmpty then [] else [acc.reverse] :=
  rfl

theorem pySplitAux_cons_eq (c : Char) (rest acc : List Char) :
    pySplitAux (c :: rest) acc =
      if pyIsSpace c then
        if acc.isEmpty then pySplitAux rest [] else acc.reverse :: pySplitAux rest []
      else pySplitAux rest (c :: acc) :=
  rfl

/-- Every word produced by `pySplitAux` is nonempty and whitespace-free,
provided the running accumulator is whitespace-free. -/
theorem pySplitAux_words (l : List Char) :
    ∀ acc : List Char, (∀ c ∈ acc, pyIsSpace c = false) →
      ∀ w ∈ pySplitAux l acc, w ≠ [] ∧ ∀ c ∈ w, pyIsSpace c = false := by
  induction l with
  | nil =>
    intro acc hacc w hw
    unfold pySplitAux at hw
    by_cases he : acc.isEmpty
    · simp [he] at hw
    · rw [if_neg he] at hw
      rcases List.mem_singleton.mp hw with rfl
      refine ⟨?_, ?_⟩
      · simp only [ne_eq, List.reverse_eq_nil_iff]
        simpa [List.isEmpty_iff] using he
      · intro c hc
        exact hacc c (List.mem_reverse.mp hc)
  | cons c rest ih =>
    intro acc hacc w hw
    unfold pySplitAux at hw
    by_cases hs : pyIsSpace c = true
    · rw [if_pos hs] at hw
      by_cases he : acc.isEmpty
      · rw [if_pos he] at hw
        exact ih [] (by simp) w hw
      · rw [if_neg he] at hw
        rcases List.mem_cons.mp hw with rfl | hw
        · refine ⟨?_, ?_⟩
          · simp only [ne_eq, List.reverse_eq_nil_iff]
            simpa [List.isEmpty_iff] using he
          · intro d hd
            exact hacc d (List.mem_reverse.mp hd)
        · exact ih [] (by simp) w hw
    · rw [if_neg hs] at hw
      refine ih (c :: acc) ?_ w hw
      intro d hd
      rcases List.mem_cons.mp hd with rfl | hd
      · exact Bool.not_eq_true _ ▸ hs
      · exact hacc d hd

/-- Feeding a whitespace-free word into `pySplitAux` just extends the
accumulator. -/
theorem pySplitAux_word_append (w : List Char) (hw : ∀ c ∈ w, pyIsSpace c = false) :
    ∀ (l acc : List Char), pySplitAux (w ++ l) acc = pySplitAux l (w.reverse ++ acc) := by
  induction w with
  | nil => intro l acc; simp
  | cons c w ih =>
    intro l acc
    have hc : pyIsSpace c = false := hw c (List.mem_cons_self c w)
    rw [show (c :: w) ++ l = c :: (w ++ l) from rfl, pySplitAux_cons_eq,
      if_neg (by simp [hc]),
      ih (fun d hd => hw d (List.mem_cons_of_mem c hd)) l (c :: acc)]
    simp

/-- `joinSpace (x :: ws)` always starts with the first word. -/
theorem joinSpace_cons_exists (x : List Char) (ws : List (List Char)) :
    ∃ t, joinSpace (x :: ws) = x ++ t := by
  cases ws with
  | nil => exact ⟨[], by simp [joinSpace]⟩
  | cons y ws => exact ⟨_, rfl⟩

/-- `joinSpace` of nonempty words is nonempty. -/
theorem joinSpace_ne_nil (x : List Char) (ws : List (List Char)) (hx : x ≠ []) :
    joinSpace (x :: ws) ≠ [] := by
  obtain ⟨t, ht⟩ := joinSpace_cons_exists x ws
  rw [ht]
  simp [hx]

/-- Splitting undoes joining, for nonempty whitespace-free words. -/
theorem pySplit_joinSpace (ws : List (List Char))
    (h : ∀ w ∈ ws, w ≠ [] ∧ ∀ c ∈ w, pyIsSpace c = false) :
    pySplit (joinSpace ws) = ws := by
  induction ws with
  | nil => rfl
  | cons w ws ih =>
    have hw := h w (List.mem_cons_self w ws)
    cases ws with
    | nil =>
      show pySplitAux (joinSpace [w]) [] = [w]
      have : joinSpace [w] = w ++ [] := by simp [joinSpace]
      rw [this, pySplitAux_word_append w hw.2 [] [], pySplitAux_nil_eq,
        if_neg (by simp [List.isEmpty_iff, hw.1])]
      simp
    | cons x ws' =>
      show pySplitAux (joinSpace (w :: x :: ws')) [] = w :: x :: ws'
      have hj : joinSpace (w :: x :: ws') = w ++ ' ' :: joinSpace (x :: ws') := rfl
      rw [hj, pySplitAux_word_append w hw.2 (' ' :: joinSpace (x :: ws')) [],
        pySplitAux_cons_eq, if_pos (by decide),
        if_neg (by simp [List.isEmpty_iff, hw.1]),
        List.append_nil, List.reverse_reverse]
      exact congrArg (w :: ·) (ih fun w' hw' => h w' (List.mem_cons_of_mem w hw'))

/-- Every character of a join is a separating space or a word character. -/
theorem mem_joinSpace (ws : List (List Char)) (c : Char) (hc : c ∈ joinSpace ws) :
    c = ' ' ∨ ∃ w ∈ ws, c ∈ w := by
  induction ws with
  | nil => simp [joinSpace] at hc
  | cons w ws ih =>
    cases ws with
    | nil =>
      right
      exact ⟨w, List.mem_cons_self w [], by simpa [joinSpace] using hc⟩
    | cons x ws' =>
      rw [show joinSpace (w :: x :: ws') = w ++ ' ' :: joinSpace (x :: ws') from rfl] at hc
      rcases List.mem_append.mp hc with hc | hc
      · exact .inr ⟨w, List.mem_cons_self w _, hc⟩
      · rcases List.mem_cons.mp hc with rfl | hc
        · exact .inl rfl
        · rcases ih hc with h | ⟨w', hw', hcw'⟩
          · exact .inl h
          · exact .inr ⟨w', List.mem_cons_of_mem w hw', hcw'⟩

/-- Prepending space-free characters preserves the no-double-space
property. -/
theorem noDoubleSpace_append (w : List Char) (hw : ∀ c ∈ w, c ≠ ' ')
    (r : List Char) (hr : noDoubleSpace r = true) :
    noDoubleSpace (w ++ r) = true := by
  induction w with
  | nil => simpa using hr
  | cons c w ih =>
    have hc : c ≠ ' ' := hw c (List.mem_cons_self c w)
    have hih : noDoubleSpace (w ++ r) = true :=
      ih fun d hd => hw d (List.mem_cons_of_mem c hd)
    show noDoubleSpace (c :: (w ++ r)) = true
    cases hwr : w ++ r with
    | nil => rfl
    | cons b t =>
      rw [hwr] at hih
      show (!(c == ' ' && b == ' ') && noDoubleSpace (b :: t)) = true
      simp [hih, hc]

/-- The join of nonempty whitespace-free words has no two adjacent spaces. -/
theorem noDoubleSpace_joinSpace (ws : List (List Char))
    (h : ∀ w ∈ ws, w ≠ [] ∧ ∀ c ∈ w, pyIsSpace c = false) :
    noDoubleSpace (joinSpace ws) = true := by
  induction ws with
  | nil => rfl
  | cons w ws ih =>
    have hw := h w (List.mem_cons_self w ws)
    have hwns : ∀ c ∈ w, c ≠ ' ' := fun c hc => nonspace_ne_space (hw.2 c hc)
    cases ws with
    | nil =>
      show noDoubleSpace (joinSpace [w]) = true
      have : joinSpace [w] = w ++ [] := by simp [joinSpace]
      rw [this]
      exact noDoubleSpace_append w hwns [] rfl
    | cons x ws' =>
      have hx := h x (List.mem_cons_of_mem w (List.mem_cons_self x ws'))
      obtain ⟨hxh, hxt, rfl⟩ :
          ∃ hxh hxt, x = hxh :: hxt := by
        cases x with
        | nil => exact absurd rfl hx.1
        | cons a b => exact ⟨a, b, rfl⟩
      obtain ⟨t, ht⟩ := joinSpace_cons_exists (hxh :: hxt) ws'
      have hih : noDoubleSpace (joinSpace ((hxh :: hxt) :: ws')) = true :=
        ih fun w' hw' => h w' (List.mem_cons_of_mem w hw')
      show noDoubleSpace (w ++ ' ' :: joinSpace ((hxh :: hxt) :: ws')) = true
      refine noDoubleSpace_append w hwns _ ?_
      rw [ht]
      rw [ht] at hih
      show (!(' ' == ' ' && hxh == ' ') && noDoubleSpace (hxh :: (hxt ++ t))) = true
      have hxhne : hxh ≠ ' ' :=
        nonspace_ne_space (hx.2 hxh (List.mem_cons_self hxh hxt))
      simpa [hxhne] using hih

/-- The head of a join of good words is not whitespace. -/
theorem joinSpace_head (ws : List (List Char))
    (h : ∀ w ∈ ws, w ≠ [] ∧ ∀ c ∈ w, pyIsSpace c = false)
    (c : Char) (hc : (joinSpace ws).head? = some c) : pyIsSpace c = false := by
  cases ws with
  | nil => simp [joinSpace] at hc
  | cons w ws =>
    have hw := h w (List.mem_cons_self w ws)
    obtain ⟨t, ht⟩ := joinSpace_cons_exists w ws
    cases w with
    | nil => exact absurd rfl hw.1
    | cons a w' =>
      rw [ht] at hc
      simp only [List.cons_append, List.head?_cons, Option.some.injEq] at hc
      subst hc
      exact hw.2 _ (List.mem_cons_self _ w')

theorem lastChar_append_cons (l : List Char) (a : Char) (r : List Char) :
    lastChar (l ++ a :: r) = lastChar (a :: r) := by
  induction l with
  | nil => rfl
  | cons c l ih =>
    have hne : l ++ a :: r ≠ [] := by simp
    obtain ⟨b, t, hbt⟩ := List.exists_cons_of_ne_nil hne
    calc lastChar (c :: l ++ a :: r) = lastChar (c :: (l ++ a :: r)) := by simp
      _ = lastChar (l ++ a :: r) := by rw [hbt]; rfl
      _ = lastChar (a :: r) := ih

theorem lastChar_mem (l : List Char) (c : Char) (h : lastChar l = some c) : c ∈ l := by
  induction l with
  | nil => simp [lastChar] at h
  | cons a t ih =>
    cases t with
    | nil =>
      simp only [lastChar, Option.some.injEq] at h
      simp [h]
    | cons b t' =>
      exact List.mem_cons_of_mem a (ih h)

/-- The last character of a join of good words is not whitespace. -/
theorem joinSpace_last (ws : List (List Char))
    (h : ∀ w ∈ ws, w ≠ [] ∧ ∀ c ∈ w, pyIsSpace c = false)
    (c : Char) (hc : lastChar (joinSpace ws) = some c) : pyIsSpace c = false := by
  induction ws with
  | nil => simp [joinSpace, lastChar] at hc
  | cons w ws ih =>
    have hw := h w (List.mem_cons_self w ws)
    cases ws with
    | nil =>
      have : joinSpace [w] = w := by simp [joinSpace]
      rw [this] at hc
      exact hw.2 c (lastChar_mem w c hc)
    | cons x ws' =>
      have hx := h x (List.mem_cons_of_mem w (List.mem_cons_self x ws'))
      obtain ⟨b, t, hbt⟩ := List.exists_cons_of_ne_nil hx.1
      obtain ⟨t', ht'⟩ := joinSpace_cons_exists x ws'
      rw [show joinSpace (w :: x :: ws') = w ++ ' ' :: joinSpace (x :: ws') from rfl,
        lastChar_append_cons] at hc
      rw [ht', hbt] at hc
      have hc' : lastChar (joinSpace (x :: ws')) = some c := by
        rw [ht', hbt]
        exact hc
      exact ih (fun w' hw' => h w' (List.mem_cons_of_mem w hw')) hc'

theorem head?_append_of_ne_nil (xs ys : List Char) (h : xs ≠ []) :
    (xs ++ ys).head? = xs.head? := by
  cases xs with
  | nil => exact absurd rfl h
  | cons a t => rfl

theorem head?_reverse_eq_lastChar (l : List Char) : l.reverse.head? = lastChar l := by
  induction l with
  | nil => rfl
  | cons a t ih =>
    cases t with
    | nil => rfl
    | cons b t' =>
      rw [List.reverse_cons, head?_append_of_ne_nil _ _ (by simp), ih]
      rfl

theorem dropWhile_eq_self_of_head (l : List Char)
    (h : ∀ c, l.head? = some c → pyIsSpace c = false) :
    l.dropWhile pyIsSpace = l := by
  cases l with
  | nil => rfl
  | cons a t =>
    have := h a rfl
    simp [List.dropWhile, this]

/-- `strip` is the identity on a list with non-whitespace ends. -/
theorem pyStripList_eq_self (l : List Char)
    (hh : ∀ c, l.head? = some c → pyIsSpace c = false)
    (hl : ∀ c, lastChar l = some c → pyIsSpace c = false) :
    pyStripList l = l := by
  unfold pyStripList
  rw [dropWhile_eq_self_of_head l hh]
  rw [dropWhile_eq_self_of_head l.reverse
    (fun c hc => hl c (head?_reverse_eq_lastChar l ▸ hc))]
  exact List.reverse_reverse l

/-- Character-wise maps fixing the space distribute over joins. -/
theorem map_joinSpace (f : Char → Char) (hf : f ' ' = ' ') (ws : List (List Char)) :
    (joinSpace ws).map f = joinSpace (ws.map (List.map f)) := by
  induction ws with
  | nil => rfl
  | cons w ws ih =>
    cases ws with
    | nil => simp [joinSpace]
    | cons x ws' =>
      show (w ++ ' ' :: joinSpace (x :: ws')).map f = _
      rw [List.map_append, List.map_cons, hf, ih]
      rfl

theorem map_id_of_forall (f : Char → Char) (l : List Char) (h : ∀ c ∈ l, f c = c) :
    l.map f = l := by
  induction l with
  | nil => rfl
  | cons a t ih =>
    rw [List.map_cons, h a (List.mem_cons_self a t),
      ih fun c hc => h c (List.mem_cons_of_mem a hc)]

theorem GoodWords.nonspace {ws : List (List Char)} (h : GoodWords ws) :
    ∀ w ∈ ws, w ≠ [] ∧ ∀ c ∈ w, pyIsSpace c = false :=
  fun w hw => ⟨(h w hw).1, fun c hc => ((h w hw).2 c hc).1⟩

/-- Structure of `sanitizeList`'s output: empty, or a join of good words. -/
theorem sanitizeList_spec (l : List Char) :
    sanitizeList l = [] ∨
    ∃ ws, ws ≠ [] ∧ GoodWords ws ∧ sanitizeList l = joinSpace ws := by
  by_cases hl : l = []
  · left
    simp [sanitizeList, hl]
  · have hdef : sanitizeList l =
        pyStripList ((joinSpace (pySplit
          ((l.map (replaceChar '\n' ' ')).map (replaceChar '\r' ' ')))).map
            (replaceChar '"' (Char.ofNat 39))) := by
      rw [sanitizeList, if_neg hl]
    rw [hdef]
    cases hsp : pySplit ((l.map (replaceChar '\n' ' ')).map (replaceChar '\r' ' ')) with
    | nil => left; rfl
    | cons w ws' =>
      right
      have hwords :
          ∀ w' ∈ w :: ws', w' ≠ [] ∧ ∀ c ∈ w', pyIsSpace c = false := by
        intro w' hw'
        exact pySplitAux_words _ [] (by simp) w' (hsp ▸ hw')
      have hgood : GoodWords ((w :: ws').map (List.map (replaceChar '"' (Char.ofNat 39)))) := by
        intro w' hw'
        rcases List.mem_map.mp hw' with ⟨w0, hw0, rfl⟩
        have h0 := hwords w0 hw0
        refine ⟨by simp [h0.1], ?_⟩
        intro c hc
        rcases List.mem_map.mp hc with ⟨d, hd, rfl⟩
        have hdns := h0.2 d hd
        by_cases hdq : d = '"'
        · subst hdq
          exact ⟨by decide, by decide⟩
        · refine ⟨?_, ?_⟩ <;> simp [replaceChar, hdq, hdns]
      refine ⟨(w :: ws').map (List.map (replaceChar '"' (Char.ofNat 39))),
        ?_, hgood, ?_⟩
      · simp
      rw [map_joinSpace (replaceChar '"' (Char.ofNat 39)) (by decide)]
      refine pyStripList_eq_self _ ?_ ?_
      · exact fun c hc => (joinSpace_head _ hgood.nonspace c hc)
      · exact fun c hc => (joinSpace_last _ hgood.nonspace c hc)

/-- `sanitizeList` is the identity on a join of good words. -/
theorem sanitizeList_joinSpace (ws : List (List Char)) (hne : ws ≠ [])
    (hgood : GoodWords ws) : sanitizeList (joinSpace ws) = joinSpace ws := by
  obtain ⟨w, ws', rfl⟩ := List.exists_cons_of_ne_nil hne
  have hwne : w ≠ [] := (hgood w (List.mem_cons_self w ws')).1
  have hjne : joinSpace (w :: ws') ≠ [] := joinSpace_ne_nil w ws' hwne
  have hdef : sanitizeList (joinSpace (w :: ws')) =
      pyStripList ((joinSpace (pySplit
        (((joinSpace (w :: ws')).map (replaceChar '\n' ' ')).map
          (replaceChar '\r' ' ')))).map (replaceChar '"' (Char.ofNat 39))) := by
    rw [sanitizeList, if_neg hjne]
  rw [hdef]
  have hmem : ∀ c ∈ joinSpace (w :: ws'), pyIsSpace c = false ∨ c = ' ' := by
    intro c hc
    rcases mem_joinSpace _ c hc with rfl | ⟨w', hw', hcw'⟩
    · exact .inr rfl
    · exact .inl ((hgood w' hw').2 c hcw').1
  have hnl : (joinSpace (w :: ws')).map (replaceChar '\n' ' ') = joinSpace (w :: ws') := by
    refine map_id_of_forall _ _ fun c hc => ?_
    rcases hmem c hc with h | rfl
    · simp [replaceChar, nonspace_ne_newline h]
    · rfl
  have hcr : (joinSpace (w :: ws')).map (replaceChar '\r' ' ') = joinSpace (w :: ws') := by
    refine map_id_of_forall _ _ fun c hc => ?_
    rcases hmem c hc with h | rfl
    · simp [replaceChar, nonspace_ne_return h]
    · rfl
  rw [hnl, hcr, pySplit_joinSpace _ hgood.nonspace]
  have hq : (joinSpace (w :: ws')).map (replaceChar '"' (Char.ofNat 39)) =
      joinSpace (w :: ws') := by
    refine map_id_of_forall _ _ fun c hc => ?_
    rcases mem_joinSpace _ c hc with rfl | ⟨w', hw', hcw'⟩
    · rfl
    · simp [replaceChar, ((hgood w' hw').2 c hcw').2]
  rw [hq]
  exact pyStripList_eq_self _
    (fun c hc => joinSpace_head _ hgood.nonspace c hc)
    (fun c hc => joinSpace_last _ hgood.nonspace c hc)

/-- **C4** (confirmed).  `sanitize_text` is idempotent, and its result
contains no newline, carriage-return or double-quote characters, no two
adjacent spaces, and no leading or trailing whitespace. -/
theorem sanitize_text_properties (s : String) :
    sanitize_text (sanitize_text s) = sanitize_text s ∧
    (∀ c ∈ (sanitize_text s).data, c ≠ '\n' ∧ c ≠ '\r' ∧ c ≠ '"') ∧
    noDoubleSpace (sanitize_text s).data = true ∧
    (∀ c, ((sanitize_text s).data).head? = some c → pyIsSpace c = false) ∧
    (∀ c, lastChar ((sanitize_text s).data) = some c → pyIsSpace c = false) := by
  have hdata : (sanitize_text s).data = sanitizeList s.data := rfl
  have hidem : sanitize_text (sanitize_text s) = sanitize_text s := by
    show String.mk (sanitizeList (sanitizeList s.data)) = String.mk (sanitizeList s.data)
    rcases sanitizeList_spec s.data with h0 | ⟨ws, hne, hgood, heq⟩
    · rw [h0]
      rfl
    · rw [heq, sanitizeList_joinSpace ws hne hgood]
  rcases sanitizeList_spec s.data with h0 | ⟨ws, hne, hgood, heq⟩
  · rw [hdata, h0]
    exact ⟨hidem, by simp, rfl, by simp, by simp [lastChar]⟩
  · rw [hdata, heq]
    refine ⟨hidem, ?_, noDoubleSpace_joinSpace ws hgood.nonspace,
      joinSpace_head ws hgood.nonspace, joinSpace_last ws hgood.nonspace⟩
    intro c hc
    rcases mem_joinSpace ws c hc with rfl | ⟨w, hw, hcw⟩
    · exact ⟨by decide, by decide, by decide⟩
    · have h := (hgood w hw).2 c hcw
      exact ⟨nonspace_ne_newline h.1, nonspace_ne_return h.1, h.2⟩

/-- Witness for C4 at a concrete input. -/
theorem sanitize_text_properties_witness :
    sanitize_text (sanitize_text "  He said \"hi\"\n  there  ") =
      sanitize_text "  He said \"hi\"\n  there  " ∧
    pyIsSpace 'H' = false :=
  ⟨(sanitize_text_properties "  He said \"hi\"\n  there  ").1,
   (sanitize_text_properties "  He said \"hi\"\n  there  ").2.2.2.1 'H' (by decide)⟩

/-! ## The repository's own unit tests (`tests/test_validators.py`), reproduced

These are not claim theorems; they cross-validate the embedding against the
test suite shipped with the repository. -/

theorem test_valid_movie_repro :
    validate_movie test_movie_valid = (true, "") := by
  decide

theorem test_missing_required_field_repro :
    validate_movie { test_movie_valid with overview := none, genres := ["Action"] } =
      (false, "Campo obrigatório ausente: overview") := by
  decide

theorem test_short_overview_repro :
    validate_movie { test_movie_valid with overview := some "Too short", genres := ["Action"] } =
      (false, "Overview muito curto: 9 caracteres (mínimo: 20)") := by
  decide

theorem test_invalid_year_repro :
    validate_movie
        { test_movie_valid with
            overview := some "This is a test movie with enough characters."
            release_date := some "1800-01-01"
            year := some 1800
            genres := ["Action"] } =
      (false, "Ano fora do intervalo válido: 1800 (permitido: 1888-2030)") := by
  decide

theorem test_no_genres_repro :
    validate_movie
        { test_movie_valid with
            overview := some "This is a test movie with enough characters."
            genres := [] } =
      (false, "Gêneros insuficientes: 0 (mínimo: 1)") := by
  decide

theorem test_is_valid_tmdb_id_repro :
    is_valid_tmdb_id 12345 = true ∧ is_valid_tmdb_id (-1) = false ∧
    is_valid_tmdb_id 0 = false := by
  decide

theorem test_sanitize_text_repro :
    sanitize_text "Line 1\nLine 2\rLine 3" = "Line 1 Line 2 Line 3" ∧
    sanitize_text "Too   many    spaces" = "Too many spaces" ∧
    sanitize_text "He said \"hello\"" = "He said 'hello'" := by
  decide

end MovieProject
